import Mathlib

/-!
Verification of the playFi trading-research frontend against its
specification.  The TypeScript sources are shallowly embedded: lists
model JS arrays, rationals model JS numbers, Option models
undefined/null, and explicit records model API payloads.  Components
that the spec assigns to the backend (indicator math beyond the chart
SMAs, the signal blender, the backtest simulator) are not present in
the frontend sources; those are modelled from the spec and marked as
such in their doc comments.
-/

namespace PlayFi

/-- A historical price bar as delivered by the prices API
(interface PriceData in the types module): timestamp plus OHLCV and an
optional vwap.  Timestamps are modelled as naturals, numbers as
rationals. -/
structure PriceData where
  timestamp : Nat
  openPrice : ℚ
  high : ℚ
  low : ℚ
  close : ℚ
  volume : ℚ
  vwap : Option ℚ
  deriving Repr, DecidableEq

/-- JS Array.slice(start, stop) restricted to the nonnegative in-range
indices used in App.tsx: the elements at positions start..stop-1. -/
def jsSlice {α : Type} (l : List α) (start stop : Nat) : List α :=
  (l.drop start).take (stop - start)

/-- The sma20 chart indicator computed in handleAssetSelect
(App.tsx line 61): index >= 19 ?
priceData.slice(index - 19, index + 1).reduce((sum, p) => sum + p.close, 0) / 20
: undefined. -/
def sma20 (priceData : List PriceData) (index : Nat) : Option ℚ :=
  if 19 ≤ index then
    some (((jsSlice priceData (index - 19) (index + 1)).map PriceData.close).sum / 20)
  else none

/-- The sma50 chart indicator computed in handleAssetSelect
(App.tsx line 62): index >= 49 ?
priceData.slice(index - 49, index + 1).reduce((sum, p) => sum + p.close, 0) / 50
: undefined. -/
def sma50 (priceData : List PriceData) (index : Nat) : Option ℚ :=
  if 49 ≤ index then
    some (((jsSlice priceData (index - 49) (index + 1)).map PriceData.close).sum / 50)
  else none

/-- The arithmetic mean of the n closes at indices lo, lo+1, ..., lo+n-1,
stated directly from the wording of the spec (for the SMA-n window
[i-n+1, i] one takes lo = i-n+1). -/
def meanWindow (priceData : List PriceData) (lo n : Nat) : ℚ :=
  (∑ k in Finset.range n, (priceData.map PriceData.close).getD (lo + k) 0) / n

lemma sum_take_drop (l : List ℚ) (a n : Nat) (h : a + n ≤ l.length) :
    ((l.drop a).take n).sum = ∑ k in Finset.range n, l.getD (a + k) 0 := by
  induction n with
  | zero => simp
  | succ m ih =>
      have hm : a + m ≤ l.length := by omega
      have hlt : a + m < l.length := by omega
      have hget : (l.drop a)[m]? = some (l.getD (a + m) 0) := by
        simp [List.getElem?_drop, List.getElem?_eq_getElem hlt]
      rw [List.take_succ, List.sum_append, ih hm, hget, Finset.sum_range_succ]
      simp

/-- C1: for the sma20 and sma50 chart indicators of handleAssetSelect,
the SMA-n value at every bar index i with i ≥ n-1 equals the arithmetic
mean of the closes of bars [i-n+1, i], and the value is undefined for
every i < n-1 (n = 20 and n = 50). -/
theorem C1_sma_window (priceData : List PriceData) (i : Nat)
    (hi : i < priceData.length) :
    (19 ≤ i → sma20 priceData i = some (meanWindow priceData (i - 19) 20)) ∧
    (i < 19 → sma20 priceData i = none) ∧
    (49 ≤ i → sma50 priceData i = some (meanWindow priceData (i - 49) 50)) ∧
    (i < 49 → sma50 priceData i = none) := by
  refine ⟨?_, ?_, ?_, ?_⟩
  · intro h19
    have hw : i + 1 - (i - 19) = 20 := by omega
    have hlen : (i - 19) + 20 ≤ (priceData.map PriceData.close).length := by
      simp only [List.length_map]; omega
    simp only [sma20, if_pos h19, jsSlice, hw, meanWindow, Option.some.injEq,
      List.map_take, List.map_drop]
    rw [sum_take_drop (priceData.map PriceData.close) (i - 19) 20 hlen]
    norm_num
  · intro h; simp [sma20, Nat.not_le.mpr h]
  · intro h49
    have hw : i + 1 - (i - 49) = 50 := by omega
    have hlen : (i - 49) + 50 ≤ (priceData.map PriceData.close).length := by
      simp only [List.length_map]; omega
    simp only [sma50, if_pos h49, jsSlice, hw, meanWindow, Option.some.injEq,
      List.map_take, List.map_drop]
    rw [sum_take_drop (priceData.map PriceData.close) (i - 49) 50 hlen]
    norm_num
  · intro h; simp [sma50, Nat.not_le.mpr h]

/-- A concrete sample bar used by witnesses. -/
def sampleBar : PriceData :=
  { timestamp := 0, openPrice := 1, high := 1, low := 1, close := 1
    volume := 1, vwap := none }

theorem C1_sma_window_witness :
    (19 ≤ 49 →
      sma20 (List.replicate 50 sampleBar) 49 =
        some (meanWindow (List.replicate 50 sampleBar) (49 - 19) 20)) ∧
    (49 < 19 → sma20 (List.replicate 50 sampleBar) 49 = none) ∧
    (49 ≤ 49 →
      sma50 (List.replicate 50 sampleBar) 49 =
        some (meanWindow (List.replicate 50 sampleBar) (49 - 49) 50)) ∧
    (49 < 49 → sma50 (List.replicate 50 sampleBar) 49 = none) :=
  C1_sma_window (List.replicate 50 sampleBar) 49 (by simp)

/-! ### C3: the chart indicators never look ahead of their own bar -/

/-- The per-bar indicator record built in handleAssetSelect
(App.tsx 58-67): the two SMAs, the client-side constants rsi = 50 and
macd = 0, and the bar's own vwap field. -/
structure ChartIndicators where
  sma20 : Option ℚ
  sma50 : Option ℚ
  rsi : ℚ
  macd : ℚ
  vwap : Option ℚ
  deriving Repr, DecidableEq

/-- The indicator record that handleAssetSelect attaches to the bar at
a given index of the price series. -/
def chartIndicatorsAt (priceData : List PriceData) (index : Nat) : ChartIndicators :=
  { sma20 := sma20 priceData index
    sma50 := sma50 priceData index
    rsi := 50
    macd := 0
    vwap := (priceData[index]?).bind PriceData.vwap }

lemma jsSlice_take (l : List PriceData) (a i : Nat) (h : a ≤ i + 1) :
    jsSlice l a (i + 1) = (l.take (i + 1)).drop a := by
  unfold jsSlice
  rw [List.take_drop]
  have ha : a + (i + 1 - a) = i + 1 := by omega
  rw [ha]

lemma sma20_of_take_eq {l1 l2 : List PriceData} {i : Nat}
    (hagree : l1.take (i + 1) = l2.take (i + 1)) :
    sma20 l1 i = sma20 l2 i := by
  unfold sma20
  by_cases h : 19 ≤ i
  · rw [if_pos h, if_pos h, jsSlice_take l1 _ _ (by omega),
      jsSlice_take l2 _ _ (by omega), hagree]
  · rw [if_neg h, if_neg h]

lemma sma50_of_take_eq {l1 l2 : List PriceData} {i : Nat}
    (hagree : l1.take (i + 1) = l2.take (i + 1)) :
    sma50 l1 i = sma50 l2 i := by
  unfold sma50
  by_cases h : 49 ≤ i
  · rw [if_pos h, if_pos h, jsSlice_take l1 _ _ (by omega),
      jsSlice_take l2 _ _ (by omega), hagree]
  · rw [if_neg h, if_neg h]

/-- C3: no lookahead — if two price series agree on bars 0..i, then
every indicator value that handleAssetSelect computes for the bar at
index i is identical, so perturbing a future bar never changes a past
indicator value. -/
theorem C3_no_lookahead (l1 l2 : List PriceData) (i : Nat)
    (_hi : i < l1.length) (hagree : l1.take (i + 1) = l2.take (i + 1)) :
    chartIndicatorsAt l1 i = chartIndicatorsAt l2 i := by
  unfold chartIndicatorsAt
  have hv : l1[i]? = l2[i]? := by
    rw [← List.getElem?_take_of_lt (l := l1) (Nat.lt_succ_self i),
      ← List.getElem?_take_of_lt (l := l2) (Nat.lt_succ_self i), hagree]
  rw [sma20_of_take_eq hagree, sma50_of_take_eq hagree, hv]

theorem C3_no_lookahead_witness :
    chartIndicatorsAt [sampleBar, sampleBar] 0 =
      chartIndicatorsAt [sampleBar] 0 :=
  C3_no_lookahead [sampleBar, sampleBar] [sampleBar] 0 (by simp) (by simp)

/-! ### C2: RSI (modelled from the spec) -/

/-- Modelled from the spec: the real RSI computation lives in the
backend service and is not among the frontend sources (the client-side
rsi field, App.tsx line 63, is an acknowledged placeholder).  The gain
of a price change is its positive part. -/
def gainOf (c : ℚ) : ℚ := max c 0

/-- Modelled from the spec: the loss of a price change is the positive
part of its negation. -/
def lossOf (c : ℚ) : ℚ := max (-c) 0

/-- Modelled from the spec: the bar-to-bar close changes of a series,
change j = close (j+1) - close j. -/
def priceChanges (closes : List ℚ) : List ℚ :=
  List.zipWith (fun a b => a - b) (closes.drop 1) closes

/-- Modelled from the spec: one step of Wilder smoothing,
avg := (avg*(n-1) + x)/n. -/
def wilderStep (n : Nat) (avg x : ℚ) : ℚ := (avg * ((n : ℚ) - 1) + x) / n

/-- Modelled from the spec: the Wilder-smoothed average of a sequence,
seeded with the plain average of its first n values. -/
def wilderAvg (n : Nat) (xs : List ℚ) : ℚ :=
  (xs.drop n).foldl (wilderStep n) ((xs.take n).sum / n)

/-- Modelled from the spec: the average gain available at bar i (the
changes with indices below i are known at bar i). -/
def avgGainAt (n : Nat) (closes : List ℚ) (i : Nat) : ℚ :=
  wilderAvg n (((priceChanges closes).take i).map gainOf)

/-- Modelled from the spec: the average loss available at bar i. -/
def avgLossAt (n : Nat) (closes : List ℚ) (i : Nat) : ℚ :=
  wilderAvg n (((priceChanges closes).take i).map lossOf)

/-- Modelled from the spec: RSI = 100 - 100/(1+RS) with
RS = avgGain/avgLoss, defined as 100 when avgLoss = 0 and avgGain > 0,
and as 50 when both averages are 0. -/
def rsiFromAvgs (g l : ℚ) : ℚ :=
  if l = 0 then (if 0 < g then 100 else 50) else 100 - 100 / (1 + g / l)

/-- Modelled from the spec: RSI-n at bar i, defined once n changes are
available and i is a bar of the series. -/
def rsiAt (n : Nat) (closes : List ℚ) (i : Nat) : Option ℚ :=
  if n ≤ i ∧ i < closes.length then
    some (rsiFromAvgs (avgGainAt n closes i) (avgLossAt n closes i))
  else none

lemma wilder_foldl_nonneg (n : Nat) (hn : 1 ≤ n) (xs : List ℚ) :
    ∀ a : ℚ, 0 ≤ a → (∀ x ∈ xs, 0 ≤ x) → 0 ≤ xs.foldl (wilderStep n) a := by
  induction xs with
  | nil => intro a ha _; simpa using ha
  | cons x xs ih =>
      intro a ha hxs
      simp only [List.foldl_cons]
      apply ih
      · unfold wilderStep
        apply div_nonneg _ (by positivity)
        have h1 : (1 : ℚ) ≤ (n : ℚ) := by exact_mod_cast hn
        have hx : 0 ≤ x := hxs x (List.mem_cons_self x xs)
        nlinarith
      · intro y hy
        exact hxs y (List.mem_cons_of_mem x hy)

lemma wilderAvg_nonneg (n : Nat) (hn : 1 ≤ n) (xs : List ℚ)
    (hxs : ∀ x ∈ xs, 0 ≤ x) : 0 ≤ wilderAvg n xs := by
  unfold wilderAvg
  apply wilder_foldl_nonneg n hn
  · apply div_nonneg _ (by positivity)
    apply List.sum_nonneg
    intro x hx
    exact hxs x (List.take_subset _ _ hx)
  · intro x hx
    exact hxs x (List.drop_subset _ _ hx)

lemma rsiFromAvgs_bounds (g l : ℚ) (hg : 0 ≤ g) (hl : 0 ≤ l) :
    0 ≤ rsiFromAvgs g l ∧ rsiFromAvgs g l ≤ 100 := by
  unfold rsiFromAvgs
  split_ifs with h1 h2
  · norm_num
  · norm_num
  · have hlpos : 0 < l := lt_of_le_of_ne hl (Ne.symm h1)
    have hq : 0 ≤ g / l := div_nonneg hg hl
    have hpos : (0 : ℚ) < 1 + g / l := by linarith
    have hd1 : 100 / (1 + g / l) ≤ 100 := by
      rw [div_le_iff₀ hpos]
      nlinarith
    have hd0 : (0 : ℚ) ≤ 100 / (1 + g / l) := by positivity
    constructor <;> linarith

/-- C2: every defined RSI value lies in [0,100]; it equals 100 when
all recent changes are gains (avgLoss = 0 and avgGain > 0) and 50 in
the degenerate case where both averages are 0. -/
theorem C2_rsi_range (n : Nat) (closes : List ℚ) (i : Nat) (r : ℚ)
    (hn : 1 ≤ n) (hr : rsiAt n closes i = some r) :
    (0 ≤ r ∧ r ≤ 100) ∧
    (avgLossAt n closes i = 0 → 0 < avgGainAt n closes i → r = 100) ∧
    (avgLossAt n closes i = 0 → avgGainAt n closes i = 0 → r = 50) := by
  have hg0 : 0 ≤ avgGainAt n closes i := by
    unfold avgGainAt
    apply wilderAvg_nonneg n hn
    intro x hx
    obtain ⟨c, _, rfl⟩ := List.mem_map.mp hx
    exact le_max_right _ _
  have hl0 : 0 ≤ avgLossAt n closes i := by
    unfold avgLossAt
    apply wilderAvg_nonneg n hn
    intro x hx
    obtain ⟨c, _, rfl⟩ := List.mem_map.mp hx
    exact le_max_right _ _
  unfold rsiAt at hr
  by_cases hcond : n ≤ i ∧ i < closes.length
  · rw [if_pos hcond] at hr
    have hr2 : rsiFromAvgs (avgGainAt n closes i) (avgLossAt n closes i) = r :=
      Option.some.inj hr
    subst hr2
    refine ⟨rsiFromAvgs_bounds _ _ hg0 hl0, ?_, ?_⟩
    · intro hl hg
      rw [hl]
      unfold rsiFromAvgs
      rw [if_pos rfl, if_pos hg]
    · intro hl hg
      rw [hl, hg]
      unfold rsiFromAvgs
      rw [if_pos rfl, if_neg (by norm_num)]
  · rw [if_neg hcond] at hr
    cases hr

theorem C2_rsi_range_witness :
    ((0 : ℚ) ≤ 100 ∧ (100 : ℚ) ≤ 100) ∧
    (avgLossAt 1 [1, 2] 1 = 0 → 0 < avgGainAt 1 [1, 2] 1 → (100 : ℚ) = 100) ∧
    (avgLossAt 1 [1, 2] 1 = 0 → avgGainAt 1 [1, 2] 1 = 0 → (100 : ℚ) = 50) :=
  C2_rsi_range 1 [1, 2] 1 100 (by decide)
    (by norm_num [rsiAt, avgGainAt, avgLossAt, wilderAvg, wilderStep,
      priceChanges, gainOf, lossOf, rsiFromAvgs])

/-! ### C4: signal blender clamp and reward:risk (modelled) -/

/-- Clamp x into [lo, hi]. -/
def clampQ (lo hi x : ℚ) : ℚ := max lo (min hi x)

/-- Modelled from the spec: the inputs of the Signal Blender (§4.3),
which runs in the backend and is absent from the frontend sources
(src only declares the ForecastResult interface and displays it). -/
structure BlendInput where
  ruleStrength : ℚ
  mlProb : Option ℚ
  mlMagnitude : ℚ
  wRule : ℚ
  wMl : ℚ
  basePrior : ℚ
  reward : ℚ
  risk : ℚ

/-- The blender outputs that populate the corresponding fields of a
ForecastResult. -/
structure BlendOutput where
  confidence : ℚ
  expectedReturn : ℚ
  rewardRisk : Option ℚ
  winProbability : ℚ
  deriving Repr, DecidableEq

/-- Modelled from the spec: the Signal Blender combines the rule-based
strength with the optional ML probability by the configured weights,
clamps confidence to [0,100], reports the reward:risk ratio as none
when the implied risk is zero, and falls back to the base prior for
the win probability when the ML signal is absent. -/
def blendSignals (inp : BlendInput) : BlendOutput :=
  let raw : ℚ :=
    match inp.mlProb with
    | some p => inp.wRule * inp.ruleStrength + inp.wMl * (p * 100)
    | none => inp.ruleStrength
  { confidence := clampQ 0 100 raw
    expectedReturn := inp.mlMagnitude
    rewardRisk := if inp.risk = 0 then none else some (inp.reward / inp.risk)
    winProbability :=
      match inp.mlProb with
      | some p => p
      | none => inp.basePrior }

/-- C4: the blended confidence that a ForecastResult carries is always
clamped to [0,100], and the reward:risk ratio is none (not zero and
not infinite) exactly when the implied risk is zero. -/
theorem C4_confidence_clamp (inp : BlendInput) :
    0 ≤ (blendSignals inp).confidence ∧
    (blendSignals inp).confidence ≤ 100 ∧
    (inp.risk = 0 → (blendSignals inp).rewardRisk = none) ∧
    (inp.risk ≠ 0 →
      (blendSignals inp).rewardRisk = some (inp.reward / inp.risk)) := by
  refine ⟨le_max_left _ _, max_le (by norm_num) (min_le_left _ _), ?_, ?_⟩
  · intro h
    simp [blendSignals, h]
  · intro h
    simp [blendSignals, h]

/-- A concrete blender input with zero risk. -/
def blendZeroRisk : BlendInput :=
  { ruleStrength := 50, mlProb := none, mlMagnitude := 0, wRule := 1/2
    wMl := 1/2, basePrior := 1/2, reward := 10, risk := 0 }

/-- A concrete blender input with nonzero risk. -/
def blendPosRisk : BlendInput :=
  { ruleStrength := 50, mlProb := some (3/4), mlMagnitude := 2, wRule := 1/2
    wMl := 1/2, basePrior := 1/2, reward := 10, risk := 5 }

theorem C4_confidence_clamp_witness :
    (0 ≤ (blendSignals blendZeroRisk).confidence ∧
      (blendSignals blendZeroRisk).rewardRisk = none) ∧
    (blendSignals blendPosRisk).rewardRisk =
      some (blendPosRisk.reward / blendPosRisk.risk) :=
  ⟨⟨(C4_confidence_clamp blendZeroRisk).1,
    (C4_confidence_clamp blendZeroRisk).2.2.1 rfl⟩,
    (C4_confidence_clamp blendPosRisk).2.2.2 (by norm_num [blendPosRisk])⟩

/-! ### C8: handleExport always posts to the PDF endpoint -/

/-- The export file type requested by the two UI export buttons. -/
inductive ExportFileType
  | pdf
  | csv
  deriving Repr, DecidableEq

/-- The file extension of a requested export type. -/
def extOf : ExportFileType → String
  | ExportFileType.pdf => "pdf"
  | ExportFileType.csv => "csv"

/-- An HTTP POST issued by exportService (api.ts 143-149): the
endpoint path, the document type field of the body, and the payload. -/
structure ExportRequest (α : Type) where
  endpoint : String
  docType : String
  payload : α

/-- exportService.exportToPDF posts the data and document type to the
/export/pdf endpoint. -/
def exportToPDF {α : Type} (data : α) (docType : String) : ExportRequest α :=
  { endpoint := "/export/pdf", docType := docType, payload := data }

/-- The observable outcome of one handleExport call (App.tsx 99-115):
the request sent and the name under which the returned blob is
downloaded. -/
structure ExportAction (α : Type) where
  request : ExportRequest α
  downloadName : String

/-- handleExport as written in App.tsx: it returns without any request
when no forecast is loaded; otherwise it always calls
exportService.exportToPDF with document type forecast, and only the
extension of the download name depends on the requested type. -/
def handleExport {α : Type} (forecast : Option α) (symbol : String)
    (now : Nat) (t : ExportFileType) : Option (ExportAction α) :=
  match forecast with
  | none => none
  | some f =>
      some { request := exportToPDF f "forecast"
             downloadName := "forecast-" ++ symbol ++ "-" ++ toString now
               ++ "." ++ extOf t }

/-- C8: whatever export type is requested, handleExport sends the
forecast to the PDF export endpoint with document type forecast, and
only the extension of the downloaded file name varies with the
requested type — so requesting csv downloads the PDF blob under a
.csv name. -/
theorem C8_export_always_pdf {α : Type} (f : α) (symbol : String) (now : Nat) :
    (∀ t : ExportFileType,
      (handleExport (some f) symbol now t).map (fun a => a.request.endpoint)
        = some ("/export/pdf") ∧
      (handleExport (some f) symbol now t).map (fun a => a.request.docType)
        = some ("forecast") ∧
      (handleExport (some f) symbol now t).map (fun a => a.request.payload)
        = some f) ∧
    ∃ stem : String, ∀ t : ExportFileType,
      (handleExport (some f) symbol now t).map (fun a => a.downloadName)
        = some (stem ++ "." ++ extOf t) :=
  ⟨fun _ => ⟨rfl, rfl, rfl⟩,
    ⟨"forecast-" ++ symbol ++ "-" ++ toString now, fun _ => rfl⟩⟩

/-! ### C9: the API response mappers touch only date fields -/

/-- A JS Date value, identified by the raw wire value it was
constructed from. -/
structure JSDate where
  raw : Nat
  deriving Repr, DecidableEq

/-- new Date(raw). -/
def newDate (raw : Nat) : JSDate := { raw := raw }

/-- A historical-price item as it arrives on the wire, its timestamp
still a raw value. -/
structure RawPriceItem where
  timestamp : Nat
  openPrice : ℚ
  high : ℚ
  low : ℚ
  close : ℚ
  volume : ℚ
  vwap : Option ℚ
  deriving Repr, DecidableEq

/-- A historical-price item after the priceService mapper. -/
structure MappedPriceItem where
  timestamp : JSDate
  openPrice : ℚ
  high : ℚ
  low : ℚ
  close : ℚ
  volume : ℚ
  vwap : Option ℚ
  deriving Repr, DecidableEq

/-- The per-item mapper of priceService.getHistoricalData
(api.ts 36-39): the JS spread of the item with only timestamp replaced
by new Date(item.timestamp). -/
def mapPriceItem (item : RawPriceItem) : MappedPriceItem :=
  { timestamp := newDate item.timestamp
    openPrice := item.openPrice, high := item.high, low := item.low
    close := item.close, volume := item.volume, vwap := item.vwap }

/-- priceService.getHistoricalData applies the mapper to every item of
the response array. -/
def getHistoricalData (respData : List RawPriceItem) : List MappedPriceItem :=
  respData.map mapPriceItem

/-- A trade record as it arrives on the wire. -/
structure RawTradeItem where
  entryDate : Nat
  exitDate : Nat
  entryPrice : ℚ
  exitPrice : ℚ
  quantity : ℚ
  pnl : ℚ
  commission : ℚ
  slippage : ℚ
  tradeType : String
  reason : String
  deriving Repr, DecidableEq

/-- A trade record after the backtest mapper. -/
structure MappedTradeItem where
  entryDate : JSDate
  exitDate : JSDate
  entryPrice : ℚ
  exitPrice : ℚ
  quantity : ℚ
  pnl : ℚ
  commission : ℚ
  slippage : ℚ
  tradeType : String
  reason : String
  deriving Repr, DecidableEq

/-- The per-trade mapper of backtestService.runBacktest
(api.ts 113-117): the spread of the trade with only entryDate and
exitDate replaced by Dates. -/
def mapTradeItem (t : RawTradeItem) : MappedTradeItem :=
  { entryDate := newDate t.entryDate, exitDate := newDate t.exitDate
    entryPrice := t.entryPrice, exitPrice := t.exitPrice
    quantity := t.quantity, pnl := t.pnl, commission := t.commission
    slippage := t.slippage, tradeType := t.tradeType, reason := t.reason }

/-- A backtest response as it arrives on the wire.  The Sharpe-ratio
field of the TS interface is called sharpe here. -/
structure RawBacktestResponse where
  periodStart : Nat
  periodEnd : Nat
  totalReturn : ℚ
  winRate : ℚ
  sharpe : ℚ
  maxDrawdown : ℚ
  totalTrades : Nat
  avgWin : ℚ
  avgLoss : ℚ
  profitFactor : ℚ
  trades : List RawTradeItem
  deriving Repr, DecidableEq

/-- A backtest response after the runBacktest mapper. -/
structure MappedBacktestResponse where
  periodStart : JSDate
  periodEnd : JSDate
  totalReturn : ℚ
  winRate : ℚ
  sharpe : ℚ
  maxDrawdown : ℚ
  totalTrades : Nat
  avgWin : ℚ
  avgLoss : ℚ
  profitFactor : ℚ
  trades : List MappedTradeItem
  deriving Repr, DecidableEq

/-- The response mapper of backtestService.runBacktest
(api.ts 107-118): the spread of the response with only period.start,
period.end and the trades' dates replaced by Dates. -/
def runBacktestMap (resp : RawBacktestResponse) : MappedBacktestResponse :=
  { periodStart := newDate resp.periodStart
    periodEnd := newDate resp.periodEnd
    totalReturn := resp.totalReturn, winRate := resp.winRate
    sharpe := resp.sharpe, maxDrawdown := resp.maxDrawdown
    totalTrades := resp.totalTrades, avgWin := resp.avgWin
    avgLoss := resp.avgLoss, profitFactor := resp.profitFactor
    trades := resp.trades.map mapTradeItem }

/-- C9: the API response mappers change only the date-typed fields.
getHistoricalData replaces exactly the timestamp of each item;
runBacktest replaces exactly the period bounds and each trade's entry
and exit dates; every other field passes through unmodified. -/
theorem C9_mappers_frame :
    (∀ respData : List RawPriceItem,
      getHistoricalData respData = respData.map mapPriceItem) ∧
    (∀ item : RawPriceItem,
      (mapPriceItem item).timestamp = newDate item.timestamp ∧
      (mapPriceItem item).openPrice = item.openPrice ∧
      (mapPriceItem item).high = item.high ∧
      (mapPriceItem item).low = item.low ∧
      (mapPriceItem item).close = item.close ∧
      (mapPriceItem item).volume = item.volume ∧
      (mapPriceItem item).vwap = item.vwap) ∧
    (∀ resp : RawBacktestResponse,
      (runBacktestMap resp).periodStart = newDate resp.periodStart ∧
      (runBacktestMap resp).periodEnd = newDate resp.periodEnd ∧
      (runBacktestMap resp).totalReturn = resp.totalReturn ∧
      (runBacktestMap resp).winRate = resp.winRate ∧
      (runBacktestMap resp).sharpe = resp.sharpe ∧
      (runBacktestMap resp).maxDrawdown = resp.maxDrawdown ∧
      (runBacktestMap resp).totalTrades = resp.totalTrades ∧
      (runBacktestMap resp).avgWin = resp.avgWin ∧
      (runBacktestMap resp).avgLoss = resp.avgLoss ∧
      (runBacktestMap resp).profitFactor = resp.profitFactor ∧
      (runBacktestMap resp).trades = resp.trades.map mapTradeItem) ∧
    (∀ t : RawTradeItem,
      (mapTradeItem t).entryDate = newDate t.entryDate ∧
      (mapTradeItem t).exitDate = newDate t.exitDate ∧
      (mapTradeItem t).entryPrice = t.entryPrice ∧
      (mapTradeItem t).exitPrice = t.exitPrice ∧
      (mapTradeItem t).quantity = t.quantity ∧
      (mapTradeItem t).pnl = t.pnl ∧
      (mapTradeItem t).commission = t.commission ∧
      (mapTradeItem t).slippage = t.slippage ∧
      (mapTradeItem t).tradeType = t.tradeType ∧
      (mapTradeItem t).reason = t.reason) :=
  ⟨fun _ => rfl,
    fun _ => ⟨rfl, rfl, rfl, rfl, rfl, rfl, rfl⟩,
    fun _ => ⟨rfl, rfl, rfl, rfl, rfl, rfl, rfl, rfl, rfl, rfl, rfl⟩,
    fun _ => ⟨rfl, rfl, rfl, rfl, rfl, rfl, rfl, rfl, rfl, rfl⟩⟩

/-! ### C10: the asset search ignores queries shorter than 2 -/

/-- JS String.prototype.trim over the character list of a string. -/
def jsTrim (s : List Char) : List Char :=
  ((s.dropWhile Char.isWhitespace).reverse.dropWhile Char.isWhitespace).reverse

/-- The state updates and request behaviour of one debouncedSearch
invocation in the AssetSearch component. -/
structure SearchOutcome (α : Type) where
  request : Option (List Char)
  searchResults : List α
  showResults : Bool
  deriving Repr, DecidableEq

/-- debouncedSearch from the AssetSearch component
(StrategySelector.tsx 243-264), the success path of the request
modelled by an abstract search function and the query string by its
character list: a query whose trimmed length is below 2 clears the
results and hides the dropdown without any request; otherwise the
untrimmed query is sent and the results shown. -/
def debouncedSearch {α : Type} (searchAssets : List Char → List α)
    (query : List Char) : SearchOutcome α :=
  if (jsTrim query).length < 2 then
    { request := none, searchResults := [], showResults := false }
  else
    { request := some query, searchResults := searchAssets query
      showResults := true }

/-- C10: a query of trimmed length below 2 issues no search request and
resets the result state; a request is issued exactly for queries of
trimmed length at least 2. -/
theorem C10_min_query_length {α : Type} (searchAssets : List Char → List α)
    (query : List Char) :
    ((jsTrim query).length < 2 →
      debouncedSearch searchAssets query =
        { request := none, searchResults := [], showResults := false }) ∧
    (2 ≤ (jsTrim query).length →
      (debouncedSearch searchAssets query).request = some query) := by
  constructor
  · intro h
    unfold debouncedSearch
    rw [if_pos h]
  · intro h
    unfold debouncedSearch
    rw [if_neg (Nat.not_lt.mpr h)]

/-- A trivial search backend used by witnesses. -/
def searchNone : List Char → List Nat := fun _ => []

theorem C10_min_query_length_witness :
    (debouncedSearch searchNone [' ', 'a'] =
      { request := none, searchResults := [], showResults := false }) ∧
    (debouncedSearch searchNone ['a', 'b']).request = some ['a', 'b'] :=
  ⟨(C10_min_query_length searchNone [' ', 'a']).1 (by decide),
    (C10_min_query_length searchNone ['a', 'b']).2 (by decide)⟩

/-! ### C5-C7: the backtest simulator (modelled from the spec) -/

/-- A trade direction. -/
inductive TradeDir
  | long
  | short
  deriving Repr, DecidableEq

/-- Modelled from the spec: the deterministic rule set and cost model
of one backtest run (§4.5).  The Backtest Simulator runs in the
backend and is absent from the frontend sources; entry and exit rules
are boolean predicates of the current bar, and quantity, commission
and slippage are fixed per run. -/
structure SimStrategy where
  entryRule : PriceData → Bool
  exitRule : PriceData → Bool
  dir : TradeDir
  quantity : ℚ
  commission : ℚ
  slippage : ℚ

/-- A closed simulated trade, carrying both the bar indices and the
bar timestamps of its entry and exit. -/
structure SimTrade where
  entryIdx : Nat
  exitIdx : Nat
  entryDate : Nat
  exitDate : Nat
  entryPrice : ℚ
  exitPrice : ℚ
  quantity : ℚ
  pnl : ℚ
  commission : ℚ
  slippage : ℚ
  dir : TradeDir
  reason : String
  deriving Repr, DecidableEq

/-- The still-open position of the simulator state. -/
structure OpenPos where
  entryIdx : Nat
  entryDate : Nat
  entryPrice : ℚ
  deriving Repr, DecidableEq

/-- The simulator state: at most one open position (an Option), the
closed trades in order, and the running count of winning trades. -/
structure SimState where
  openPos : Option OpenPos
  trades : List SimTrade
  wins : Nat
  deriving Repr, DecidableEq

/-- The trade recorded when position p is closed on the bar b at index
i: P&L is the directed price move times quantity, net of commission
and slippage. -/
def closeTrade (st : SimStrategy) (p : OpenPos) (i : Nat) (b : PriceData)
    (reason : String) : SimTrade :=
  { entryIdx := p.entryIdx, exitIdx := i
    entryDate := p.entryDate, exitDate := b.timestamp
    entryPrice := p.entryPrice, exitPrice := b.close
    quantity := st.quantity
    pnl := (match st.dir with
      | TradeDir.long => b.close - p.entryPrice
      | TradeDir.short => p.entryPrice - b.close) * st.quantity
      - st.commission - st.slippage
    commission := st.commission, slippage := st.slippage
    dir := st.dir, reason := reason }

/-- Record a closed trade in the state and bump the win counter when
its P&L is positive. -/
def applyClose (st : SimStrategy) (s : SimState) (p : OpenPos) (i : Nat)
    (b : PriceData) (reason : String) : SimState :=
  let t := closeTrade st p i b reason
  { openPos := none, trades := s.trades ++ [t]
    wins := s.wins + (if 0 < t.pnl then 1 else 0) }

/-- Modelled from the spec: the decision taken on one bar of the
Backtest Simulator loop (§4.5).  An entered position evaluates the
exit rule and closes at the bar close, or is force-closed with reason
period end when this is the final bar; a flat state evaluates the
entry rule and enters at the bar close.  A position is only opened
while a later bar remains, so every position closes strictly after it
entered. -/
def stepBar (st : SimStrategy) (b : PriceData) (isLast : Bool) (i : Nat)
    (s : SimState) : SimState :=
  match s.openPos with
  | some p =>
      if st.exitRule b then applyClose st s p i b "signal_exit"
      else if isLast then applyClose st s p i b "period_end"
      else s
  | none =>
      if st.entryRule b && !isLast then
        { openPos := some { entryIdx := i, entryDate := b.timestamp
                            entryPrice := b.close }
          trades := s.trades, wins := s.wins }
      else s

/-- Modelled from the spec: the chronological bar loop of the
Backtest Simulator. -/
def runBars (st : SimStrategy) : List PriceData → Nat → SimState → SimState
  | [], _, s => s
  | b :: rest, i, s => runBars st rest (i + 1) (stepBar st b rest.isEmpty i s)

/-- The aggregate result of one backtest run. -/
structure SimBacktestResult where
  totalReturn : ℚ
  winRate : ℚ
  totalTrades : Nat
  profitFactor : Option ℚ
  trades : List SimTrade
  deriving Repr, DecidableEq

/-- Modelled from the spec: one full backtest run over a price series
with a given initial capital, aggregating the recorded trades into the
result metrics (win rate 0 when no trades; profit factor none when the
gross loss is 0). -/
def runBacktestSim (st : SimStrategy) (priceSeries : List PriceData)
    (initialCapital : ℚ) : SimBacktestResult :=
  let fin := runBars st priceSeries 0 { openPos := none, trades := [], wins := 0 }
  let grossWin : ℚ := (fin.trades.map (fun t => max t.pnl 0)).sum
  let grossLoss : ℚ := (fin.trades.map (fun t => max (-t.pnl) 0)).sum
  { totalReturn := (fin.trades.map (fun t => t.pnl)).sum / initialCapital
    winRate := if fin.trades.length = 0 then 0
      else (fin.wins : ℚ) / (fin.trades.length : ℚ)
    totalTrades := fin.trades.length
    profitFactor := if grossLoss = 0 then none else some (grossWin / grossLoss)
    trades := fin.trades }

/-- C5: the backtest simulation is deterministic — identical inputs
(strategy, price series, initial capital) produce identical results in
every field, including the ordered trade list. -/
theorem C5_backtest_deterministic (st1 st2 : SimStrategy)
    (ps1 ps2 : List PriceData) (c1 c2 : ℚ)
    (hst : st1 = st2) (hps : ps1 = ps2) (hc : c1 = c2) :
    runBacktestSim st1 ps1 c1 = runBacktestSim st2 ps2 c2 := by
  subst hst
  subst hps
  subst hc
  rfl

/-- A strategy that never enters, used by witnesses. -/
def neverStrategy : SimStrategy :=
  { entryRule := fun _ => false, exitRule := fun _ => false
    dir := TradeDir.long, quantity := 1, commission := 0, slippage := 0 }

theorem C5_backtest_deterministic_witness :
    runBacktestSim neverStrategy [sampleBar] 100 =
      runBacktestSim neverStrategy [sampleBar] 100 :=
  C5_backtest_deterministic neverStrategy neverStrategy [sampleBar] [sampleBar]
    100 100 rfl rfl rfl

lemma stepBar_wins (st : SimStrategy) (b : PriceData) (e : Bool) (i : Nat)
    (s : SimState)
    (h : s.wins = s.trades.countP (fun t => decide (0 < t.pnl))) :
    (stepBar st b e i s).wins =
      (stepBar st b e i s).trades.countP (fun t => decide (0 < t.pnl)) := by
  obtain ⟨op, tr, w⟩ := s
  have h2 : w = tr.countP (fun t => decide (0 < t.pnl)) := h
  cases op with
  | none =>
      simp only [stepBar]
      split_ifs <;> exact h2
  | some p =>
      simp only [stepBar]
      split_ifs with hx1 hx2
      · simp [applyClose, closeTrade, List.countP_append, List.countP_cons, h2]
      · simp [applyClose, closeTrade, List.countP_append, List.countP_cons, h2]
      · exact h2

lemma runBars_wins (st : SimStrategy) :
    ∀ (l : List PriceData) (i : Nat) (s : SimState),
      s.wins = s.trades.countP (fun t => decide (0 < t.pnl)) →
      (runBars st l i s).wins =
        (runBars st l i s).trades.countP (fun t => decide (0 < t.pnl)) := by
  intro l
  induction l with
  | nil => intro i s h; simpa [runBars] using h
  | cons b rest ih =>
      intro i s h
      simp only [runBars]
      exact ih (i + 1) _ (stepBar_wins st b rest.isEmpty i s h)

/-- C6: in every backtest result, winRate equals the number of trades
with positive P&L divided by totalTrades, exactly, and is 0 in the
degenerate case totalTrades = 0. -/
theorem C6_win_rate (st : SimStrategy) (ps : List PriceData) (cap : ℚ) :
    (runBacktestSim st ps cap).winRate =
      if (runBacktestSim st ps cap).totalTrades = 0 then 0 else
        (((runBacktestSim st ps cap).trades.countP
            (fun t => decide (0 < t.pnl)) : Nat) : ℚ) /
          ((runBacktestSim st ps cap).totalTrades : ℚ) := by
  have hw := runBars_wins st ps 0 { openPos := none, trades := [], wins := 0 }
    (by simp)
  simp only [runBacktestSim]
  rw [hw]

/-- The invariant carried through the simulator loop: any open
position entered strictly before the current index, dated strictly
before every remaining bar, and after every recorded trade; all
recorded trades exit after they enter (in index and in date) and
before the current index; and the recorded trades are chronologically
disjoint. -/
def SimInv (l : List PriceData) (i : Nat) (s : SimState) : Prop :=
  (∀ p, s.openPos = some p →
    p.entryIdx < i ∧ (∀ b ∈ l, p.entryDate < b.timestamp) ∧
    (∀ t ∈ s.trades, t.exitIdx < p.entryIdx)) ∧
  (∀ t ∈ s.trades,
    t.entryIdx < t.exitIdx ∧ t.entryDate < t.exitDate ∧ t.exitIdx < i) ∧
  s.trades.Pairwise (fun a b => a.exitIdx < b.entryIdx)

lemma stepBar_inv (st : SimStrategy) (b : PriceData) (rest : List PriceData)
    (i : Nat) (s : SimState)
    (hb : ∀ b2 ∈ rest, b.timestamp < b2.timestamp)
    (hinv : SimInv (b :: rest) i s) :
    SimInv rest (i + 1) (stepBar st b rest.isEmpty i s) := by
  obtain ⟨hop, htr, hpw⟩ := hinv
  obtain ⟨op, tr, w⟩ := s
  cases op with
  | some p =>
      obtain ⟨h1, h2, h3⟩ := hop p rfl
      have hclose : ∀ r : String,
          SimInv rest (i + 1)
            (applyClose st { openPos := some p, trades := tr, wins := w } p i b r) := by
        intro r
        refine ⟨?_, ?_, ?_⟩
        · intro q hq
          simp [applyClose] at hq
        · intro t ht
          simp only [applyClose, List.mem_append, List.mem_singleton] at ht
          rcases ht with ht | ht
          · obtain ⟨ha, hbd, hc⟩ := htr t ht
            exact ⟨ha, hbd, by omega⟩
          · subst ht
            refine ⟨?_, ?_, ?_⟩
            · simpa [closeTrade] using h1
            · have hbts := h2 b (List.mem_cons_self b rest)
              simp only [closeTrade]
              exact hbts
            · simp only [closeTrade]
              exact Nat.lt_succ_self i
        · simp only [applyClose]
          rw [List.pairwise_append]
          refine ⟨hpw, List.pairwise_singleton _ _, ?_⟩
          intro a ha c hc
          rw [List.mem_singleton] at hc
          subst hc
          simpa [closeTrade] using h3 a ha
      simp only [stepBar]
      split_ifs with hex hlast
      · exact hclose _
      · exact hclose _
      · refine ⟨?_, ?_, hpw⟩
        · intro q hq
          have hq2 : some p = some q := hq
          obtain rfl := Option.some.inj hq2
          exact ⟨by omega, fun b2 hb2 => h2 b2 (List.mem_cons_of_mem b hb2), h3⟩
        · intro t ht
          obtain ⟨ha, hbd, hc⟩ := htr t ht
          exact ⟨ha, hbd, by omega⟩
  | none =>
      simp only [stepBar]
      split_ifs with hen
      · refine ⟨?_, ?_, hpw⟩
        · intro q hq
          have hq2 : some (⟨i, b.timestamp, b.close⟩ : OpenPos) = some q := hq
          obtain rfl := Option.some.inj hq2
          refine ⟨by dsimp only; omega, ?_, ?_⟩
          · intro b2 hb2
            simpa using hb b2 hb2
          · intro t ht
            exact (htr t ht).2.2
        · intro t ht
          obtain ⟨ha, hbd, hc⟩ := htr t ht
          exact ⟨ha, hbd, by omega⟩
      · refine ⟨?_, ?_, hpw⟩
        · intro q hq
          have hq2 : (none : Option OpenPos) = some q := hq
          cases hq2
        · intro t ht
          obtain ⟨ha, hbd, hc⟩ := htr t ht
          exact ⟨ha, hbd, by omega⟩

/-- The trade-list properties that survive to the end of the run. -/
def TradesOK (s : SimState) : Prop :=
  (∀ t ∈ s.trades, t.entryIdx < t.exitIdx ∧ t.entryDate < t.exitDate) ∧
  s.trades.Pairwise (fun a b => a.exitIdx < b.entryIdx)

lemma runBars_inv (st : SimStrategy) :
    ∀ (l : List PriceData) (i : Nat) (s : SimState),
      l.Pairwise (fun a b => a.timestamp < b.timestamp) →
      SimInv l i s → TradesOK (runBars st l i s) := by
  intro l
  induction l with
  | nil =>
      intro i s _ hinv
      obtain ⟨_, htr, hpw⟩ := hinv
      exact ⟨fun t ht => ⟨(htr t ht).1, (htr t ht).2.1⟩, hpw⟩
  | cons b rest ih =>
      intro i s hsort hinv
      rw [List.pairwise_cons] at hsort
      simp only [runBars]
      exact ih (i + 1) _ hsort.2 (stepBar_inv st b rest i s hsort.1 hinv)

/-- C7: in every backtest run over a series with strictly increasing
timestamps, every recorded trade exits strictly after it enters (in
bar index and in date), and the recorded trades are pairwise disjoint
in time — the observable form of at most one open position at any
time. -/
theorem C7_one_position_exit_after_entry (st : SimStrategy)
    (ps : List PriceData) (cap : ℚ)
    (hsorted : ps.Pairwise (fun a b => a.timestamp < b.timestamp)) :
    (∀ t ∈ (runBacktestSim st ps cap).trades,
      t.entryIdx < t.exitIdx ∧ t.entryDate < t.exitDate) ∧
    (runBacktestSim st ps cap).trades.Pairwise
      (fun a b => a.exitIdx < b.entryIdx) := by
  have hinit : SimInv ps 0 { openPos := none, trades := [], wins := 0 } := by
    unfold SimInv
    refine ⟨?_, ?_, List.Pairwise.nil⟩
    · intro p hp
      cases hp
    · intro t ht
      cases ht
  exact runBars_inv st ps 0 { openPos := none, trades := [], wins := 0 }
    hsorted hinit

/-- A strategy that always enters and always exits, used by the C7
witness to produce an actual trade. -/
def alwaysStrategy : SimStrategy :=
  { entryRule := fun _ => true, exitRule := fun _ => true
    dir := TradeDir.long, quantity := 1, commission := 0, slippage := 0 }

/-- A bar at timestamp k with constant prices, used by witnesses. -/
def wbar (k : Nat) : PriceData :=
  { timestamp := k, openPrice := 1, high := 1, low := 1, close := 1
    volume := 1, vwap := none }

theorem C7_one_position_exit_after_entry_witness :
    (∀ t ∈ (runBacktestSim alwaysStrategy [wbar 0, wbar 1, wbar 2] 100).trades,
      t.entryIdx < t.exitIdx ∧ t.entryDate < t.exitDate) ∧
    (runBacktestSim alwaysStrategy [wbar 0, wbar 1, wbar 2] 100).trades.Pairwise
      (fun a b => a.exitIdx < b.entryIdx) :=
  C7_one_position_exit_after_entry alwaysStrategy [wbar 0, wbar 1, wbar 2] 100
    (by simp [List.pairwise_cons, wbar])

end PlayFi
